import Mathlib

/-!
Shallow embedding of the `VirtualListView` component (vertical variant,
`VirtualListView.tsx`): the render-block bookkeeping, the cell
allocation/recycling pool, the measurement/correction protocol and the
scroll handler.  The horizontal variant is the same code modulo the
axis renaming (width/left for height/top), so the vertical variant is
the one embedded here.

Modelling conventions:
* JS numbers (extents, offsets, scroll positions) are modelled as `Rat`
  (the fractional overdraw factor 0.5 makes `Int` unsuitable); item
  counts and indices are `Nat`.
* JS `Map` objects are association lists with unique keys
  (`alSet` replaces in place or appends, as `Map.set` does);
  JS `Set` objects are duplicate-free lists.
* `assert(cond, msg)` is modelled by appending `msg` to the
  `assertions` trace field whenever `cond` is false.
* Substrate calls (`cellRef.current`, animated values, `focus()`,
  `forceUpdate`) have no effect on the modelled state; `forceUpdate`
  and the caller-supplied `onScroll` callback are recorded as effects
  of the scroll handler.
-/

namespace VirtualList

/-- JS `Map.get`. -/
def alGet {α : Type} (m : List (String × α)) (k : String) : Option α :=
  match m with
  | [] => none
  | (k', v) :: rest => if k' = k then some v else alGet rest k

/-- JS `Map.set`: replace the binding in place if the key is present,
otherwise append it. -/
def alSet {α : Type} (m : List (String × α)) (k : String) (v : α) : List (String × α) :=
  match m with
  | [] => [(k, v)]
  | (k', v') :: rest => if k' = k then (k, v) :: rest else (k', v') :: alSet rest k v

/-- JS `Map.delete`. -/
def alErase {α : Type} (m : List (String × α)) (k : String) : List (String × α) :=
  match m with
  | [] => []
  | (k', v') :: rest => if k' = k then alErase rest k else (k', v') :: alErase rest k

/-- JS `Set.add` (idempotent). -/
def setAdd (s : List String) (k : String) : List String :=
  if k ∈ s then s else s ++ [k]

/-- `_.findIndex`, returning `none` for -1. -/
def listFindIdx {α : Type} (l : List α) (p : α → Bool) : Option Nat :=
  match l with
  | [] => none
  | x :: rest => if p x then some 0 else (listFindIdx rest p).map (· + 1)

/-- Truthiness of an optional string (`undefined` and `''` are falsy). -/
def strTruthy : Option String → Bool
  | none => false
  | some s => s ≠ ""

/-- `VirtualListViewItemInfo`: the externally supplied item descriptor.
`payload` stands for the remaining caller data that `_.isEqual` compares. -/
structure ItemInfo where
  key : String
  height : Rat
  measureHeight : Bool
  template : Option String
  isNavigable : Bool
  payload : Int
deriving DecidableEq, Repr

/-- `VirtualCellInfo`: the mutable allocation unit of the cell pool.
`virtualKey` models the `'vc_' + _nextCellKey` synthetic key. -/
structure CellInfo where
  virtualKey : Nat
  itemTemplate : Option String
  isHeightConstant : Bool
  height : Rat
  cachedItemKey : String
  top : Rat
  isVisible : Bool
  shouldUpdate : Bool
deriving DecidableEq, Repr

/-- The slice of `VirtualListViewProps` read by the embedded methods.
`hasOnScroll` records whether the caller supplied an `onScroll` callback. -/
structure Props where
  itemList : List ItemInfo
  skipRenderIfItemUnchanged : Bool
  animateChanges : Bool
  hasOnScroll : Bool
deriving DecidableEq, Repr

/-- The instance fields of `VirtualListView` that the embedded methods
read or write (including the class-static `_nextCellKey` counter and the
`lastFocusedItemKey` React state field). -/
structure VLVState where
  lastScrollTop : Rat
  layoutHeight : Rat
  isRenderDirty : Bool
  pendingAnimations : List String
  heightAboveRenderAdjustment : Rat
  heightAboveRenderBlock : Rat
  heightOfRenderBlock : Rat
  heightBelowRenderBlock : Rat
  itemsAboveRenderBlock : Nat
  itemsInRenderBlock : Nat
  itemsBelowRenderBlock : Nat
  pendingMeasurements : List String
  isInitialFillComplete : Bool
  heightCache : List (String × Rat)
  nextCellKey : Nat
  activeCells : List (String × CellInfo)
  recycledCells : List CellInfo
  itemMap : List (String × Nat)
  navigatableItemsRendered : List String
  lastFocusedItemKey : Option String
  maxRecycledCells : Nat
  renderOverdrawFactor : Rat
  minOverdrawAmount : Rat
  maxOverdrawAmount : Rat
  cullFraction : Rat
  minCullAmount : Rat
  containerHeight : Rat
  isMounted : Bool
  assertions : List String
deriving DecidableEq, Repr

/-- Field initializers of `VirtualListView` (before any layout event). -/
def initialState : VLVState where
  lastScrollTop := 0
  layoutHeight := 0
  isRenderDirty := false
  pendingAnimations := []
  heightAboveRenderAdjustment := 0
  heightAboveRenderBlock := 0
  heightOfRenderBlock := 0
  heightBelowRenderBlock := 0
  itemsAboveRenderBlock := 0
  itemsInRenderBlock := 0
  itemsBelowRenderBlock := 0
  pendingMeasurements := []
  isInitialFillComplete := false
  heightCache := []
  nextCellKey := 1
  activeCells := []
  recycledCells := []
  itemMap := []
  navigatableItemsRendered := []
  lastFocusedItemKey := none
  maxRecycledCells := 50
  renderOverdrawFactor := 1/2
  minOverdrawAmount := 512
  maxOverdrawAmount := 4096
  cullFraction := 1
  minCullAmount := 1024
  containerHeight := 0
  isMounted := false
  assertions := []

/-- `_maxSimultaneousMeasures`. -/
def maxSimultaneousMeasures : Nat := 16

/-- `_getHeightOfItem`. -/
def getHeightOfItem (s : VLVState) : Option ItemInfo → Rat
  | none => 0
  | some item =>
    if !item.measureHeight then item.height
    else
      match alGet s.heightCache item.key with
      | some cachedHeight => cachedHeight
      | none => item.height

/-- `_isItemHeightKnown`. -/
def isItemHeightKnown (s : VLVState) (item : ItemInfo) : Bool :=
  !item.measureHeight || (alGet s.heightCache item.key).isSome

/-- `_shouldShowItem`: hide while measuring or before the initial fill. -/
def shouldShowItem (s : VLVState) (item : ItemInfo) : Bool :=
  !(!(isItemHeightKnown s item) || !s.isInitialFillComplete)

/-- `_calcOverdrawAmount`. -/
def calcOverdrawAmount (s : VLVState) : Rat :=
  if s.isInitialFillComplete then
    min (max (s.layoutHeight * s.renderOverdrawFactor) s.minOverdrawAmount) s.maxOverdrawAmount
  else 0

/-- `_calcHeightOfItems(props, start, stop - 1)`: total extent of the
items at indices `start ≤ i < stop` (the source passes an inclusive end
index; call sites here pass its successor). -/
def calcHeightOfItems (s : VLVState) (props : Props) (start stop : Nat) : Rat :=
  (((props.itemList.take stop).drop start).map (fun it => getHeightOfItem s (some it))).sum

/-- `_setCellTopAndVisibility` (the animate flag only drives the
substrate animation, not the modelled state). -/
def setCellTopAndVisibility (s : VLVState) (itemKey : String) (isVisible : Bool)
    (top : Rat) (_animate : Bool) : VLVState :=
  match alGet s.activeCells itemKey with
  | none => { s with assertions := s.assertions ++ ["Missing cell"] }
  | some cellInfo =>
    { s with activeCells :=
        alSet s.activeCells itemKey { cellInfo with isVisible := isVisible, top := top } }

/-- `_isCellVisible`. -/
def isCellVisible (s : VLVState) (itemKey : String) : Bool :=
  match alGet s.activeCells itemKey with
  | none => false
  | some cellInfo => cellInfo.isVisible

/-- `_recycleCell`. -/
def recycleCell (s : VLVState) (itemKey : String) : VLVState :=
  match alGet s.activeCells itemKey with
  | none => s
  | some virtualCellInfo =>
    let s1 :=
      if s.maxRecycledCells > 0 then
        let s' := setCellTopAndVisibility s itemKey false virtualCellInfo.top false
        if strTruthy virtualCellInfo.itemTemplate && virtualCellInfo.isHeightConstant then
          let pushed := s'.recycledCells ++ [{ virtualCellInfo with isVisible := false }]
          if pushed.length > s'.maxRecycledCells then
            { s' with recycledCells := pushed.drop 1, isRenderDirty := true }
          else
            { s' with recycledCells := pushed }
        else
          { s' with isRenderDirty := true }
      else s
    { s1 with activeCells := alErase s1.activeCells itemKey }

/-- Cell-selection part of `_allocateCell`: the already-active cell if
any, else the best recycled candidate (exact `(template, cachedItemKey,
height)` match preferred, then any cell with the same template, removed
from the recycled list by `splice(bestOptionIndex, 1)`). -/
def allocPick (s : VLVState) (itemKey : String) (itemTemplate : Option String)
    (isHeightConstant : Bool) (height : Rat) : Option CellInfo × List CellInfo :=
  match alGet s.activeCells itemKey with
  | some c => (some c, s.recycledCells)
  | none =>
    if strTruthy itemTemplate && isHeightConstant then
      let exactIdx := listFindIdx s.recycledCells (fun cell =>
        cell.itemTemplate == itemTemplate && cell.cachedItemKey == itemKey &&
          cell.height == height)
      let bestOptionIndex :=
        match exactIdx with
        | some i => some i
        | none => listFindIdx s.recycledCells (fun cell => cell.itemTemplate == itemTemplate)
      match bestOptionIndex with
      | some i => (s.recycledCells.get? i, s.recycledCells.eraseIdx i)
      | none => (none, s.recycledCells)
    else (none, s.recycledCells)

/-- `_allocateCell`. -/
def allocateCell (s : VLVState) (itemKey : String) (itemTemplate : Option String)
    (_itemIndex : Nat) (isHeightConstant : Bool) (height top : Rat) (isVisible : Bool) :
    VLVState :=
  match allocPick s itemKey itemTemplate isHeightConstant height with
  | (some newCell, recycled') =>
    let repurposed := { newCell with isVisible := isVisible, top := top, shouldUpdate := true }
    let msgs :=
      (if newCell.isHeightConstant = isHeightConstant then []
       else ["isHeightConstant assumed to not change"]) ++
      (if newCell.itemTemplate = itemTemplate then []
       else ["itemTemplate assumed to not change"])
    { s with recycledCells := recycled',
             activeCells := alSet s.activeCells itemKey repurposed,
             isRenderDirty := true,
             assertions := s.assertions ++ msgs }
  | (none, recycled') =>
    let fresh : CellInfo :=
      { virtualKey := s.nextCellKey
        itemTemplate := itemTemplate
        isHeightConstant := isHeightConstant
        height := height
        cachedItemKey := itemKey
        top := top
        isVisible := isVisible
        shouldUpdate := true }
    { s with nextCellKey := s.nextCellKey + 1,
             recycledCells := recycled',
             activeCells := alSet s.activeCells itemKey fresh,
             isRenderDirty := true }

/-- `_focusSubsequentItem(direction, viaKeyboard, retry = false)`:
with retrying disabled it reports success without touching the modelled
state (the `focus()` call is a substrate effect). -/
def focusSubsequentItemNoRetry (s : VLVState) (direction : Int) : Bool :=
  match listFindIdx s.navigatableItemsRendered (fun k => s.lastFocusedItemKey == some k) with
  | some index => decide ((index : Int) + direction > -1) &&
      decide ((index : Int) + direction < (s.navigatableItemsRendered.length : Int))
  | none => false

/-- `cell.shouldUpdate = true` on an active cell (write-through to the
active map). -/
def markShouldUpdate (s : VLVState) (k : String) (cell : CellInfo) : VLVState :=
  { s with activeCells := alSet s.activeCells k { cell with shouldUpdate := true } }

/-- First loop of `_handleItemListChange`: build the new item map,
assert on duplicate keys, and mark retained active cells `shouldUpdate`
when the old props opt out of change-skipping genuinely should have
happened (the source tests `skipRenderIfItemUnchanged ||
!_.isEqual(oldItem, item)` verbatim, which is reproduced here). -/
def hlcMarkCells (oldProps : Option Props) :
    List ItemInfo → Nat → List (String × Nat) → VLVState → (List (String × Nat) × VLVState)
  | [], _, newItemMap, s => (newItemMap, s)
  | item :: rest, itemIndex, newItemMap, s =>
    let s1 :=
      if (alGet newItemMap item.key).isSome then
        { s with assertions := s.assertions ++ ["Found a duplicate key: " ++ item.key] }
      else s
    let newItemMap' := alSet newItemMap item.key itemIndex
    let s2 :=
      match oldProps with
      | none => s1
      | some op =>
        match alGet s1.activeCells item.key with
        | none => s1
        | some cell =>
          match alGet s1.itemMap item.key with
          | none => markShouldUpdate s1 item.key cell
          | some oldItemIndex =>
            let oldItem := op.itemList.get? oldItemIndex
            if op.skipRenderIfItemUnchanged || !(oldItem == some item) then
              markShouldUpdate s1 item.key cell
            else s1
    hlcMarkCells oldProps rest (itemIndex + 1) newItemMap' s2

/-- Second loop of `_handleItemListChange`: forget deleted items
(focus handoff, adjustment for above-block deletions, height cache and
pending-measurement cleanup, recycling of their active cells). -/
def hlcRemoveOld (newItemMap : List (String × Nat)) :
    List ItemInfo → Nat → VLVState → VLVState
  | [], _, s => s
  | item :: rest, itemIndex, s =>
    let s' :=
      if (alGet newItemMap item.key).isSome then s
      else
        let s1 :=
          if s.lastFocusedItemKey == some item.key then
            if !(focusSubsequentItemNoRetry s 1) && !(focusSubsequentItemNoRetry s (-1)) then
              { s with lastFocusedItemKey := none }
            else s
          else s
        let s2 :=
          if itemIndex < s1.itemsAboveRenderBlock then
            { s1 with heightAboveRenderAdjustment :=
                s1.heightAboveRenderAdjustment + getHeightOfItem s1 (some item) }
          else s1
        let s3 := { s2 with heightCache := alErase s2.heightCache item.key,
                            pendingMeasurements := s2.pendingMeasurements.erase item.key }
        if (alGet s3.activeCells item.key).isSome then recycleCell s3 item.key else s3
    hlcRemoveOld newItemMap rest (itemIndex + 1) s'

/-- Third loop of `_handleItemListChange`: walk the new list
accumulating extent and classify each item as culled-above, in-block
(placing or allocating its cell) or culled-below.  Returns the new
`itemsAboveRenderBlock` and `itemsInRenderBlock` counters. -/
def hlcBounds (props : Props) (renderBlockTopLimit renderBlockBottomLimit : Rat) :
    List ItemInfo → Nat → Rat → Bool → Nat → Nat → VLVState → (Nat × Nat × VLVState)
  | [], _, _, _, above, inBlock, s => (above, inBlock, s)
  | item :: rest, itemIndex, yPos, looking, above, inBlock, s =>
    let itemHeight := getHeightOfItem s (some item)
    let yPosition := yPos + itemHeight
    if yPosition ≤ renderBlockTopLimit then
      let s' := if (alGet s.activeCells item.key).isSome then recycleCell s item.key else s
      hlcBounds props renderBlockTopLimit renderBlockBottomLimit rest (itemIndex + 1)
        yPosition looking above inBlock s'
    else
      let above' := if looking then itemIndex else above
      if yPosition - itemHeight < renderBlockBottomLimit then
        let s' :=
          if (alGet s.activeCells item.key).isSome then
            setCellTopAndVisibility s item.key (shouldShowItem s item)
              (yPosition - itemHeight) props.animateChanges
          else
            let sA := allocateCell s item.key item.template itemIndex (!item.measureHeight)
              item.height (yPosition - itemHeight) (shouldShowItem s item)
            if !(isItemHeightKnown sA item) then
              { sA with pendingMeasurements := setAdd sA.pendingMeasurements item.key }
            else sA
        hlcBounds props renderBlockTopLimit renderBlockBottomLimit rest (itemIndex + 1)
          yPosition false above' (inBlock + 1) s'
      else
        let s' := if (alGet s.activeCells item.key).isSome then recycleCell s item.key else s
        hlcBounds props renderBlockTopLimit renderBlockBottomLimit rest (itemIndex + 1)
          yPosition false above' inBlock s'

/-- `_handleItemListChange(props)`: `oldProps` is `this.props` at call
time (the previous item list), `props` the incoming one. -/
def handleItemListChange (oldProps : Option Props) (props : Props) (s : VLVState) : VLVState :=
  let mk := hlcMarkCells oldProps props.itemList 0 [] s
  let newItemMap := mk.1
  let oldItems := match oldProps with | some op => op.itemList | none => []
  let s1 := hlcRemoveOld newItemMap oldItems 0 mk.2
  let overdrawAmount := calcOverdrawAmount s1
  let renderBlockTopLimit := s1.lastScrollTop - overdrawAmount
  let renderBlockBottomLimit := s1.lastScrollTop + s1.layoutHeight + overdrawAmount
  let bounds := hlcBounds props renderBlockTopLimit renderBlockBottomLimit props.itemList 0
    s1.heightAboveRenderAdjustment true 0 0 s1
  let above := bounds.1
  let inBlock := bounds.2.1
  let s2 := bounds.2.2
  let s3 := { s2 with itemMap := newItemMap,
                      itemsAboveRenderBlock := above,
                      itemsInRenderBlock := inBlock,
                      itemsBelowRenderBlock := props.itemList.length - above - inBlock }
  let s4 := { s3 with heightAboveRenderBlock := calcHeightOfItems s3 props 0 above,
                      heightOfRenderBlock := calcHeightOfItems s3 props above (above + inBlock),
                      heightBelowRenderBlock :=
                        calcHeightOfItems s3 props (above + inBlock) props.itemList.length }
  if s4.containerHeight == 0 then
    { s4 with containerHeight :=
        s4.heightAboveRenderBlock + s4.heightOfRenderBlock + s4.heightBelowRenderBlock }
  else s4

/-- Key of `itemList[i]` (the source reads it only at indices that are
in range for a consistent state). -/
def itemKeyAt (props : Props) (i : Nat) : String :=
  ((props.itemList.get? i).map ItemInfo.key).getD ""

/-- First while-loop of `_calcNewRenderedItemState`: cull items from
the top of the render block.  The fuel starts at `itemsInRenderBlock`,
which bounds the iteration count (each pass removes one item). -/
def cullTop (props : Props) (topCullLine : Rat) : Nat → VLVState → VLVState
  | 0, s => s
  | fuel + 1, s =>
    if s.itemsInRenderBlock = 0 then s
    else
      match props.itemList.get? s.itemsAboveRenderBlock with
      | none => s
      | some item =>
        if !(isItemHeightKnown s item) then s
        else
          let itemHeight := getHeightOfItem s (some item)
          if s.heightAboveRenderAdjustment + s.heightAboveRenderBlock + itemHeight ≥
              topCullLine then s
          else
            let s' := { s with
              itemsInRenderBlock := s.itemsInRenderBlock - 1,
              heightOfRenderBlock := s.heightOfRenderBlock - itemHeight,
              itemsAboveRenderBlock := s.itemsAboveRenderBlock + 1,
              heightAboveRenderBlock := s.heightAboveRenderBlock + itemHeight }
            cullTop props topCullLine fuel (recycleCell s' item.key)

/-- Second while-loop of `_calcNewRenderedItemState`: cull items from
the bottom of the render block. -/
def cullBottom (props : Props) (bottomCullLine : Rat) : Nat → VLVState → VLVState
  | 0, s => s
  | fuel + 1, s =>
    if s.itemsInRenderBlock = 0 then s
    else
      match props.itemList.get? (s.itemsAboveRenderBlock + s.itemsInRenderBlock - 1) with
      | none => s
      | some item =>
        if !(isItemHeightKnown s item) then s
        else
          let itemHeight := getHeightOfItem s (some item)
          if s.heightAboveRenderAdjustment + s.heightAboveRenderBlock +
              s.heightOfRenderBlock - itemHeight ≤ bottomCullLine then s
          else
            let s' := { s with
              itemsInRenderBlock := s.itemsInRenderBlock - 1,
              heightOfRenderBlock := s.heightOfRenderBlock - itemHeight,
              itemsBelowRenderBlock := s.itemsBelowRenderBlock + 1,
              heightBelowRenderBlock := s.heightBelowRenderBlock + itemHeight }
            cullBottom props bottomCullLine fuel (recycleCell s' item.key)

/-- Search loop of the `itemsInRenderBlock == 0` branch: find the first
item past the top render limit and allocate its cell. -/
def seedLoop (props : Props) (renderBlockTopLimit : Rat) :
    List ItemInfo → Nat → Rat → VLVState → (Nat × Nat × VLVState)
  | [], _, _, s => (0, 0, s)
  | item :: rest, i, yPos, s =>
    let itemHeight := getHeightOfItem s (some item)
    let yPosition := yPos + itemHeight
    if yPosition > renderBlockTopLimit then
      let sA := allocateCell s item.key item.template i (!item.measureHeight) item.height
        (yPosition - itemHeight) (shouldShowItem s item)
      let sB :=
        if !(isItemHeightKnown sA item) then
          { sA with pendingMeasurements := setAdd sA.pendingMeasurements item.key }
        else sA
      (i, 1, sB)
    else seedLoop props renderBlockTopLimit rest (i + 1) yPosition s

/-- The `itemsInRenderBlock == 0` branch of `_calcNewRenderedItemState`:
re-seed the render block from scratch and rebuild all counters. -/
def calcSeedBlock (props : Props) (renderBlockTopLimit : Rat) (s : VLVState) : VLVState :=
  let seeded := seedLoop props renderBlockTopLimit props.itemList 0
    s.heightAboveRenderAdjustment s
  let above := seeded.1
  let inBlock := seeded.2.1
  let s1 := seeded.2.2
  let s2 := { s1 with itemsAboveRenderBlock := above,
                      itemsInRenderBlock := inBlock,
                      itemsBelowRenderBlock := props.itemList.length - above - inBlock }
  { s2 with heightAboveRenderBlock := calcHeightOfItems s2 props 0 above,
            heightOfRenderBlock := calcHeightOfItems s2 props above (above + inBlock),
            heightBelowRenderBlock :=
              calcHeightOfItems s2 props (above + inBlock) props.itemList.length }

/-- Placement loop of `_calcNewRenderedItemState`: reposition every
in-block cell, accumulating the y cursor; returns the bottom edge. -/
def positionBlock (props : Props) : List Nat → Rat → VLVState → (VLVState × Rat)
  | [], yPos, s => (s, yPos)
  | i :: rest, yPos, s =>
    match props.itemList.get? i with
    | none => (s, yPos)
    | some item =>
      let s' := setCellTopAndVisibility s item.key (shouldShowItem s item) yPos
        props.animateChanges
      positionBlock props rest (yPos + getHeightOfItem s' (some item)) s'

/-- The `buildItem` closure of `_calcNewRenderedItemState`: move one
item from the above/below region into the render block and allocate its
cell.  Returns the updated `(state, topOfRenderBlockY, bottomOfRenderBlockY)`. -/
def buildItem (props : Props) (itemIndex : Nat) (above : Bool) (topY botY : Rat)
    (s : VLVState) : VLVState × Rat × Rat :=
  match props.itemList.get? itemIndex with
  | none => (s, topY, botY)
  | some item =>
    let isHeightKnown := isItemHeightKnown s item
    let itemHeight := getHeightOfItem s (some item)
    let s0 :=
      if itemHeight > 0 then s
      else { s with assertions := s.assertions ++ ["list items should always have non-zero height"] }
    let s1 := { s0 with itemsInRenderBlock := s0.itemsInRenderBlock + 1,
                        heightOfRenderBlock := s0.heightOfRenderBlock + itemHeight }
    let placed : VLVState × Rat × Rat × Rat :=
      if above then
        let s2 := { s1 with itemsAboveRenderBlock := s1.itemsAboveRenderBlock - 1,
                            heightAboveRenderBlock := s1.heightAboveRenderBlock - itemHeight }
        (s2, topY - itemHeight, topY - itemHeight, botY)
      else
        let s2 := { s1 with itemsBelowRenderBlock := s1.itemsBelowRenderBlock - 1,
                            heightBelowRenderBlock := s1.heightBelowRenderBlock - itemHeight }
        (s2, botY, topY, botY + itemHeight)
    let s3 := placed.1
    let yPlacement := placed.2.1
    let s4 :=
      if !isHeightKnown then
        { s3 with pendingMeasurements := setAdd s3.pendingMeasurements item.key }
      else s3
    let s5 := allocateCell s4 item.key item.template itemIndex (!item.measureHeight)
      item.height yPlacement (shouldShowItem s4 item)
    (s5, placed.2.2.1, placed.2.2.2)

/-- Bottom-growth while-loop of `_calcNewRenderedItemState`; fuel
starts at `itemsBelowRenderBlock`. -/
def fillBottom (props : Props) (renderBlockBottomLimit : Rat) :
    Nat → Rat → Rat → VLVState → VLVState × Rat × Rat
  | 0, topY, botY, s => (s, topY, botY)
  | fuel + 1, topY, botY, s =>
    if !(s.pendingMeasurements.length < maxSimultaneousMeasures) then (s, topY, botY)
    else if s.itemsBelowRenderBlock = 0 ∨
        s.heightAboveRenderAdjustment + s.heightAboveRenderBlock + s.heightOfRenderBlock ≥
          renderBlockBottomLimit then (s, topY, botY)
    else
      let built := buildItem props (s.itemsAboveRenderBlock + s.itemsInRenderBlock) false
        topY botY s
      fillBottom props renderBlockBottomLimit fuel built.2.1 built.2.2 built.1

/-- Top-growth while-loop of `_calcNewRenderedItemState`; fuel starts
at `itemsAboveRenderBlock`. -/
def fillTop (props : Props) (renderBlockTopLimit : Rat) :
    Nat → Rat → Rat → VLVState → VLVState × Rat × Rat
  | 0, topY, botY, s => (s, topY, botY)
  | fuel + 1, topY, botY, s =>
    if !(s.pendingMeasurements.length < maxSimultaneousMeasures) then (s, topY, botY)
    else if s.itemsAboveRenderBlock = 0 ∨
        s.heightAboveRenderAdjustment + s.heightAboveRenderBlock ≤ renderBlockTopLimit then
      (s, topY, botY)
    else
      let built := buildItem props (s.itemsAboveRenderBlock - 1) true topY botY s
      fillTop props renderBlockTopLimit fuel built.2.1 built.2.2 built.1

/-- Body loop of `_popInvisibleIntoView`. -/
def popLoop (props : Props) : List Nat → VLVState → VLVState
  | [], s => s
  | i :: rest, s =>
    match props.itemList.get? i with
    | none => popLoop props rest s
    | some item =>
      match alGet s.activeCells item.key with
      | none => popLoop props rest s
      | some cellInfo =>
        popLoop props rest
          (setCellTopAndVisibility s item.key (shouldShowItem s item) cellInfo.top false)

/-- `_popInvisibleIntoView`: mark the initial fill complete and snap
every in-block cell into its (now visible) place. -/
def popInvisibleIntoView (props : Props) (s : VLVState) : VLVState :=
  let s1 := { s with isInitialFillComplete := true }
  popLoop props (List.range' s1.itemsAboveRenderBlock s1.itemsInRenderBlock) s1

/-- `_calcNewRenderedItemState`.  The deferred re-entry scheduled by
`_componentDidRender` is a separate event-loop task and is not part of
this synchronous pass; its synchronous effect (`_isRenderDirty = false`)
is retained. -/
def calcNewRenderedItemState (props : Props) (s : VLVState) : VLVState :=
  if s.layoutHeight == 0 then s
  else if props.itemList.length = 0 then s
  else if s.pendingMeasurements.length > 0 then s
  else
    let cullMargin := max (s.layoutHeight * s.cullFraction) s.minCullAmount
    let topCullLine := s.lastScrollTop - cullMargin
    let bottomCullLine := s.lastScrollTop + s.layoutHeight + cullMargin
    let sA := cullTop props topCullLine s.itemsInRenderBlock s
    let sB := cullBottom props bottomCullLine sA.itemsInRenderBlock sA
    let overdrawAmount := calcOverdrawAmount sB
    let renderMargin := if sB.isInitialFillComplete then overdrawAmount else 0
    let renderBlockTopLimit := sB.lastScrollTop - renderMargin
    let renderBlockBottomLimit := sB.lastScrollTop + sB.layoutHeight + renderMargin
    let sC := if sB.itemsInRenderBlock = 0 then calcSeedBlock props renderBlockTopLimit sB else sB
    let itemBlockHeight := sC.heightAboveRenderAdjustment + sC.heightAboveRenderBlock +
      sC.heightOfRenderBlock + sC.heightBelowRenderBlock
    let containerHeight := max itemBlockHeight sC.layoutHeight
    let yPosition := sC.heightAboveRenderBlock + sC.heightAboveRenderAdjustment
    let topOfRenderBlockY := yPosition
    let positioned := positionBlock props
      (List.range' sC.itemsAboveRenderBlock sC.itemsInRenderBlock) yPosition sC
    let sD := positioned.1
    let bottomOfRenderBlockY := positioned.2
    let sE := if containerHeight != sD.containerHeight then
        { sD with containerHeight := containerHeight }
      else sD
    let filledB := fillBottom props renderBlockBottomLimit sE.itemsBelowRenderBlock
      topOfRenderBlockY bottomOfRenderBlockY sE
    let sF := filledB.1
    let filledT := fillTop props renderBlockTopLimit sF.itemsAboveRenderBlock
      filledB.2.1 filledB.2.2 sF
    let sG := filledT.1
    if !sG.isInitialFillComplete && !sG.isRenderDirty &&
        sG.pendingMeasurements.length = 0 then
      -- `_popInvisibleIntoView` plus the synchronous part of the
      -- `_componentDidRender` call that follows it.
      let sH := popInvisibleIntoView props sG
      { sH with isRenderDirty := false }
    else sG

/-- Reposition loop of the `_reconcileCorrections` flush. -/
def reconcileFlushLoop (props : Props) (adj : Rat) : List Nat → VLVState → VLVState
  | [], s => s
  | i :: rest, s =>
    match props.itemList.get? i with
    | none => reconcileFlushLoop props adj rest s
    | some item =>
      match alGet s.activeCells item.key with
      | none => reconcileFlushLoop props adj rest s
      | some cell =>
        reconcileFlushLoop props adj rest
          (setCellTopAndVisibility s item.key cell.isVisible (cell.top - adj) false)

/-- `_reconcileCorrections`. -/
def reconcileCorrections (props : Props) (s : VLVState) : VLVState :=
  if s.pendingAnimations.length > 0 then s
  else
    let maxFakeSpaceOffset : Rat := 0
    let maxFakeSpaceOffset :=
      if s.lastScrollTop == 0 || s.lastScrollTop < s.heightAboveRenderAdjustment then 0
      else maxFakeSpaceOffset
    if |s.heightAboveRenderAdjustment| > maxFakeSpaceOffset then
      let adj := s.heightAboveRenderAdjustment
      let s1 := { s with containerHeight := s.containerHeight - adj }
      let s2 := reconcileFlushLoop props adj
        (List.range' s1.itemsAboveRenderBlock s1.itemsInRenderBlock) s1
      { s2 with heightAboveRenderAdjustment := 0 }
    else s

/-- Observable effects of one `_onScroll` delivery. -/
inductive ScrollEffect where
  | recompute
  | render
  | reconcile
  | scrollCallback (scrollTop scrollLeft : Rat)
deriving DecidableEq, Repr

/-- `_onScroll(scrollTop, scrollLeft)`: the vertical list keys its
idempotence guard on the primary-axis offset only.  Returns the new
state together with the effects of the delivery (`render` stands for
the `forceUpdate` issued by `_renderIfDirty`, `scrollCallback` for the
caller-supplied `props.onScroll`). -/
def onScroll (props : Props) (s : VLVState) (scrollTop scrollLeft : Rat) :
    VLVState × List ScrollEffect :=
  if s.lastScrollTop == scrollTop then (s, [])
  else
    let s1 := { s with lastScrollTop := scrollTop }
    let s2 := calcNewRenderedItemState props s1
    let renderFx := if s2.isRenderDirty && s2.isMounted then [ScrollEffect.render] else []
    let s3 := reconcileCorrections props s2
    (s3, [ScrollEffect.recompute] ++ renderFx ++ [ScrollEffect.reconcile] ++
      (if props.hasOnScroll then [ScrollEffect.scrollCallback scrollTop scrollLeft] else []))

/-- Scan of `_onLayoutItem` looking for a visible cell at or before the
measured item (stops at `itemIndex`). -/
def findVisibleItemBefore (props : Props) (s : VLVState) (itemIndex : Nat) :
    List Nat → Bool
  | [] => false
  | i :: rest =>
    if isCellVisible s (itemKeyAt props i) then true
    else if i = itemIndex then false
    else findVisibleItemBefore props s itemIndex rest

/-- `_onLayoutItem(itemKey, newHeight)`: the measurement callback. -/
def onLayoutItem (props : Props) (s : VLVState) (itemKey : String) (newHeight : Rat) :
    VLVState :=
  if !s.isMounted then s
  else
    match alGet s.itemMap itemKey with
    | none => s
    | some itemIndex =>
      match props.itemList.get? itemIndex with
      | none => s
      | some item =>
        let oldHeight := getHeightOfItem s (some item)
        if !item.measureHeight then s
        else
          let s1 := { s with heightCache := alSet s.heightCache itemKey newHeight }
          if itemIndex < s1.itemsAboveRenderBlock ∨
              itemIndex ≥ s1.itemsAboveRenderBlock + s1.itemsInRenderBlock then s1
          else
            let changed := oldHeight != newHeight
            let s2 :=
              if changed then
                let sH := { s1 with heightOfRenderBlock :=
                  s1.heightOfRenderBlock + (newHeight - oldHeight) }
                if sH.isInitialFillComplete then
                  let foundVisibleItemBefore := findVisibleItemBefore props sH itemIndex
                    (List.range' sH.itemsAboveRenderBlock sH.itemsInRenderBlock)
                  if !foundVisibleItemBefore then
                    { sH with heightAboveRenderAdjustment :=
                        sH.heightAboveRenderAdjustment + (oldHeight - newHeight) }
                  else sH
                else sH
              else s1
            let s3 := { s2 with pendingMeasurements := s2.pendingMeasurements.erase itemKey }
            let needsRecalc := changed || s3.pendingMeasurements.isEmpty
            let s4 := if needsRecalc then calcNewRenderedItemState props s3 else s3
            reconcileCorrections props s4

/-! ### Association-list lemmas -/

theorem alGet_alSet_self {α : Type} (m : List (String × α)) (k : String) (v : α) :
    alGet (alSet m k v) k = some v := by
  induction m with
  | nil => simp [alSet, alGet]
  | cons p rest ih =>
    obtain ⟨k0, v0⟩ := p
    by_cases h : k0 = k <;> simp [alSet, alGet, h, ih]

theorem alGet_alSet_ne {α : Type} (m : List (String × α)) (k k' : String) (v : α)
    (h : k ≠ k') : alGet (alSet m k v) k' = alGet m k' := by
  induction m with
  | nil => simp [alSet, alGet, h]
  | cons p rest ih =>
    obtain ⟨k0, v0⟩ := p
    by_cases h0 : k0 = k
    · subst h0; simp [alSet, alGet, h]
    · simp [alSet, alGet, h0, ih]

theorem alGet_alErase_self {α : Type} (m : List (String × α)) (k : String) :
    alGet (alErase m k) k = none := by
  induction m with
  | nil => simp [alErase, alGet]
  | cons p rest ih =>
    obtain ⟨k0, v0⟩ := p
    by_cases h : k0 = k <;> simp [alErase, alGet, h, ih]

theorem alGet_alErase_ne {α : Type} (m : List (String × α)) (k k' : String)
    (h : k ≠ k') : alGet (alErase m k) k' = alGet m k' := by
  induction m with
  | nil => simp [alErase, alGet]
  | cons p rest ih =>
    obtain ⟨k0, v0⟩ := p
    by_cases h0 : k0 = k
    · subst h0; simp [alErase, alGet, h, ih]
    · simp [alErase, alGet, h0, ih]

/-! ### Counter preservation for the cell-pool operations -/

/-- Sum of the three render-block counters (the invariant of §3 of the
specification compares it with the item-list length). -/
def counterSum (s : VLVState) : Nat :=
  s.itemsAboveRenderBlock + s.itemsInRenderBlock + s.itemsBelowRenderBlock

/-- Record-update normal form of `setCellTopAndVisibility`: it touches
only the `activeCells` and `assertions` fields. -/
theorem setCellTopAndVisibility_eq (s : VLVState) (k : String) (vis : Bool)
    (tp : Rat) (an : Bool) :
    setCellTopAndVisibility s k vis tp an =
      { s with
        activeCells :=
          match alGet s.activeCells k with
          | none => s.activeCells
          | some c => alSet s.activeCells k { c with isVisible := vis, top := tp },
        assertions :=
          match alGet s.activeCells k with
          | none => s.assertions ++ ["Missing cell"]
          | some _ => s.assertions } := by
  unfold setCellTopAndVisibility
  split <;> simp_all

theorem counterSum_setCellTopAndVisibility (s : VLVState) (k : String) (vis : Bool)
    (tp : Rat) (an : Bool) : counterSum (setCellTopAndVisibility s k vis tp an) = counterSum s := by
  rw [setCellTopAndVisibility_eq]; rfl

theorem counterSum_markShouldUpdate (s : VLVState) (k : String) (c : CellInfo) :
    counterSum (markShouldUpdate s k c) = counterSum s := rfl

theorem counterSum_recycleCell (s : VLVState) (k : String) :
    counterSum (recycleCell s k) = counterSum s := by
  unfold recycleCell
  split
  · rfl
  · next cell heq =>
    rw [setCellTopAndVisibility_eq]
    simp only [heq]
    repeat' split
    all_goals rfl

theorem allocateCell_itemsAbove (s : VLVState) (k : String) (t : Option String) (i : Nat)
    (c : Bool) (h tp : Rat) (v : Bool) :
    (allocateCell s k t i c h tp v).itemsAboveRenderBlock = s.itemsAboveRenderBlock := by
  unfold allocateCell
  rcases hq : allocPick s k t c h with ⟨o, r⟩
  cases o <;> rfl

theorem allocateCell_itemsIn (s : VLVState) (k : String) (t : Option String) (i : Nat)
    (c : Bool) (h tp : Rat) (v : Bool) :
    (allocateCell s k t i c h tp v).itemsInRenderBlock = s.itemsInRenderBlock := by
  unfold allocateCell
  rcases hq : allocPick s k t c h with ⟨o, r⟩
  cases o <;> rfl

theorem allocateCell_itemsBelow (s : VLVState) (k : String) (t : Option String) (i : Nat)
    (c : Bool) (h tp : Rat) (v : Bool) :
    (allocateCell s k t i c h tp v).itemsBelowRenderBlock = s.itemsBelowRenderBlock := by
  unfold allocateCell
  rcases hq : allocPick s k t c h with ⟨o, r⟩
  cases o <;> rfl

theorem counterSum_allocateCell (s : VLVState) (k : String) (t : Option String) (i : Nat)
    (c : Bool) (h tp : Rat) (v : Bool) :
    counterSum (allocateCell s k t i c h tp v) = counterSum s := by
  unfold allocateCell
  rcases hq : allocPick s k t c h with ⟨o, r⟩
  cases o <;> rfl

theorem counterSum_cullTop (props : Props) (tl : Rat) :
    ∀ fuel s, counterSum (cullTop props tl fuel s) = counterSum s := by
  intro fuel
  induction fuel with
  | zero => intro s; rfl
  | succ n ih =>
    intro s
    unfold cullTop
    dsimp only
    split
    · rfl
    · split
      · rfl
      · split
        · rfl
        · split
          · rfl
          · rw [ih, counterSum_recycleCell]
            simp only [counterSum]
            omega

theorem counterSum_cullBottom (props : Props) (bl : Rat) :
    ∀ fuel s, counterSum (cullBottom props bl fuel s) = counterSum s := by
  intro fuel
  induction fuel with
  | zero => intro s; rfl
  | succ n ih =>
    intro s
    unfold cullBottom
    dsimp only
    split
    · rfl
    · split
      · rfl
      · split
        · rfl
        · split
          · rfl
          · rw [ih, counterSum_recycleCell]
            simp only [counterSum]
            omega

theorem seedLoop_le (props : Props) (tl : Rat) (N : Nat) :
    ∀ items idx yPos s, idx + items.length ≤ N →
      (seedLoop props tl items idx yPos s).1 + (seedLoop props tl items idx yPos s).2.1 ≤ N := by
  intro items
  induction items with
  | nil => intro idx yPos s hle; simp [seedLoop]
  | cons item rest ih =>
    intro idx yPos s hle
    simp only [List.length_cons] at hle
    unfold seedLoop
    dsimp only
    split
    · simp only []
      omega
    · exact ih (idx + 1) _ s (by omega)

theorem counterSum_calcSeedBlock (props : Props) (tl : Rat) (s : VLVState) :
    counterSum (calcSeedBlock props tl s) = props.itemList.length := by
  have hb := seedLoop_le props tl props.itemList.length props.itemList 0
    s.heightAboveRenderAdjustment s (by omega)
  unfold calcSeedBlock
  simp only [counterSum]
  omega

theorem counterSum_positionBlock (props : Props) :
    ∀ idxs yPos s, counterSum (positionBlock props idxs yPos s).1 = counterSum s := by
  intro idxs
  induction idxs with
  | nil => intro yPos s; rfl
  | cons i rest ih =>
    intro yPos s
    unfold positionBlock
    dsimp only
    split
    · rfl
    · rw [ih, counterSum_setCellTopAndVisibility]

theorem counterSum_buildItem (props : Props) (itemIndex : Nat) (ab : Bool) (topY botY : Rat)
    (s : VLVState) (hA : ab = true → s.itemsAboveRenderBlock ≠ 0)
    (hB : ab = false → s.itemsBelowRenderBlock ≠ 0) :
    counterSum (buildItem props itemIndex ab topY botY s).1 = counterSum s := by
  unfold buildItem
  dsimp only
  split
  · rfl
  · cases ab
    · have hb := hB rfl
      repeat' split
      all_goals simp only [counterSum, allocateCell_itemsAbove, allocateCell_itemsIn,
        allocateCell_itemsBelow]
      all_goals first
      | omega
      | simp_all
    · have ha := hA rfl
      repeat' split
      all_goals simp only [counterSum, allocateCell_itemsAbove, allocateCell_itemsIn,
        allocateCell_itemsBelow]
      all_goals first
      | omega
      | simp_all

theorem counterSum_fillBottom (props : Props) (bl : Rat) :
    ∀ fuel topY botY s, counterSum (fillBottom props bl fuel topY botY s).1 = counterSum s := by
  intro fuel
  induction fuel with
  | zero => intro topY botY s; rfl
  | succ n ih =>
    intro topY botY s
    unfold fillBottom
    dsimp only
    split
    · rfl
    · split
      · rfl
      · next hguard =>
        rw [ih, counterSum_buildItem]
        · intro hab; cases hab
        · intro _
          intro h0
          exact hguard (Or.inl h0)

theorem counterSum_fillTop (props : Props) (tl : Rat) :
    ∀ fuel topY botY s, counterSum (fillTop props tl fuel topY botY s).1 = counterSum s := by
  intro fuel
  induction fuel with
  | zero => intro topY botY s; rfl
  | succ n ih =>
    intro topY botY s
    unfold fillTop
    dsimp only
    split
    · rfl
    · split
      · rfl
      · next hguard =>
        rw [ih, counterSum_buildItem]
        · intro _
          intro h0
          exact hguard (Or.inl h0)
        · intro hab; cases hab

theorem counterSum_popLoop (props : Props) :
    ∀ idxs s, counterSum (popLoop props idxs s) = counterSum s := by
  intro idxs
  induction idxs with
  | nil => intro s; rfl
  | cons i rest ih =>
    intro s
    unfold popLoop
    split
    · exact ih s
    · split
      · exact ih s
      · rw [ih, counterSum_setCellTopAndVisibility]

theorem counterSum_popInvisibleIntoView (props : Props) (s : VLVState) :
    counterSum (popInvisibleIntoView props s) = counterSum s := by
  unfold popInvisibleIntoView
  rw [counterSum_popLoop]
  rfl

theorem counterSum_setAdjustment (t : VLVState) (x : Rat) :
    counterSum { t with heightAboveRenderAdjustment := x } = counterSum t := rfl

theorem counterSum_setContainerHeight (t : VLVState) (x : Rat) :
    counterSum { t with containerHeight := x } = counterSum t := rfl

theorem counterSum_setDirty (t : VLVState) (b : Bool) :
    counterSum { t with isRenderDirty := b } = counterSum t := rfl

theorem counterSum_reconcileFlushLoop (props : Props) (adj : Rat) :
    ∀ idxs s, counterSum (reconcileFlushLoop props adj idxs s) = counterSum s := by
  intro idxs
  induction idxs with
  | nil => intro s; rfl
  | cons i rest ih =>
    intro s
    unfold reconcileFlushLoop
    split
    · exact ih s
    · split
      · exact ih s
      · rw [ih, counterSum_setCellTopAndVisibility]

theorem counterSum_reconcileCorrections (props : Props) (s : VLVState) :
    counterSum (reconcileCorrections props s) = counterSum s := by
  unfold reconcileCorrections
  dsimp only
  split
  · rfl
  · split <;> split
    all_goals first
    | rfl
    | rw [counterSum_setAdjustment, counterSum_reconcileFlushLoop, counterSum_setContainerHeight]

theorem counterSum_calcNewRenderedItemState (props : Props) (s : VLVState)
    (hs : counterSum s = props.itemList.length) :
    counterSum (calcNewRenderedItemState props s) = props.itemList.length := by
  unfold calcNewRenderedItemState
  split
  · exact hs
  · split
    · exact hs
    · split
      · exact hs
      · dsimp only
        repeat' split
        all_goals
          simp only [counterSum_setDirty, counterSum_popInvisibleIntoView, counterSum_fillTop,
            counterSum_fillBottom, counterSum_setContainerHeight, counterSum_positionBlock,
            counterSum_calcSeedBlock, counterSum_cullTop, counterSum_cullBottom]
        all_goals exact hs

theorem hlcBounds_le (props : Props) (tl bl : Rat) :
    ∀ (items : List ItemInfo) (idx : Nat) (yPos : Rat) (looking : Bool) (above inBlock : Nat)
      (s : VLVState), (looking = true → inBlock = 0) → above + inBlock ≤ idx →
      (hlcBounds props tl bl items idx yPos looking above inBlock s).1 +
        (hlcBounds props tl bl items idx yPos looking above inBlock s).2.1 ≤
        idx + items.length := by
  intro items
  induction items with
  | nil =>
    intro idx yPos looking above inBlock s hlook hle
    simpa [hlcBounds] using hle.trans (Nat.le_add_right idx 0)
  | cons item rest ih =>
    intro idx yPos looking above inBlock s hlook hle
    unfold hlcBounds
    dsimp only
    split
    · refine le_trans (ih (idx + 1) _ looking above inBlock _ hlook (by omega)) ?_
      simp only [List.length_cons]
      omega
    · split
      · by_cases hl : looking = true
        · have h0 := hlook hl
          simp only [hl, if_true]
          refine le_trans (ih (idx + 1) _ false idx (inBlock + 1) _ (by simp) (by omega)) ?_
          simp only [List.length_cons]
          omega
        · simp only [hl, if_false]
          refine le_trans (ih (idx + 1) _ false above (inBlock + 1) _ (by simp) (by omega)) ?_
          simp only [List.length_cons]
          omega
      · by_cases hl : looking = true
        · have h0 := hlook hl
          simp only [hl, if_true]
          refine le_trans (ih (idx + 1) _ false idx inBlock _ (by simp) (by omega)) ?_
          simp only [List.length_cons]
          omega
        · simp only [hl, if_false]
          refine le_trans (ih (idx + 1) _ false above inBlock _ (by simp) (by omega)) ?_
          simp only [List.length_cons]
          omega

theorem hlcBounds_le' (props : Props) (tl bl : Rat) (items : List ItemInfo) (yPos : Rat)
    (s : VLVState) :
    (hlcBounds props tl bl items 0 yPos true 0 0 s).1 +
      (hlcBounds props tl bl items 0 yPos true 0 0 s).2.1 ≤ items.length := by
  simpa using hlcBounds_le props tl bl items 0 yPos true 0 0 s (fun _ => rfl) (Nat.le_refl 0)

theorem counterSum_handleItemListChange (op : Option Props) (props : Props) (s : VLVState) :
    counterSum (handleItemListChange op props s) = props.itemList.length := by
  have key : ∀ (B : Nat × Nat × VLVState), B.1 + B.2.1 ≤ props.itemList.length →
      B.1 + B.2.1 + (props.itemList.length - B.1 - B.2.1) = props.itemList.length := by
    intro B h
    omega
  unfold handleItemListChange
  dsimp only
  split
  all_goals simp only [counterSum]
  all_goals exact key _ (hlcBounds_le' props _ _ _ _ _)

theorem counterSum_onScroll (props : Props) (s : VLVState) (t l : Rat)
    (hs : counterSum s = props.itemList.length) :
    counterSum (onScroll props s t l).1 = props.itemList.length := by
  unfold onScroll
  dsimp only
  split
  · exact hs
  · rw [counterSum_reconcileCorrections]
    exact counterSum_calcNewRenderedItemState props _ hs

theorem counterSum_onLayoutItem (props : Props) (s : VLVState) (k : String) (hgt : Rat)
    (hs : counterSum s = props.itemList.length) :
    counterSum (onLayoutItem props s k hgt) = props.itemList.length := by
  unfold onLayoutItem
  dsimp only
  repeat' split
  all_goals first
  | exact hs
  | (rw [counterSum_reconcileCorrections]
     first
     | exact counterSum_calcNewRenderedItemState props _ hs
     | exact hs)

/-! ### Concrete fixtures used by witnesses and counterexamples -/

/-- A constant-height item. -/
def exItemA : ItemInfo :=
  { key := "a", height := 50, measureHeight := false, template := none,
    isNavigable := false, payload := 0 }

/-- A second constant-height item. -/
def exItemB : ItemInfo :=
  { key := "b", height := 50, measureHeight := false, template := none,
    isNavigable := false, payload := 0 }

/-- Props with a two-item list and all optional behavior off. -/
def exProps : Props :=
  { itemList := [exItemA, exItemB], skipRenderIfItemUnchanged := false,
    animateChanges := false, hasOnScroll := true }

/-- A laid-out state whose counters account for `exProps`'s two items. -/
def exState1 : VLVState :=
  { initialState with layoutHeight := 100, itemsBelowRenderBlock := 2 }

/-! ### C1 -/

/-- C1: for every item list and after every recomputation pass (list
change via `handleItemListChange`, scroll via `onScroll`, item
measurement via `onLayoutItem`, culling or growth of the block via
`calcNewRenderedItemState`), the three render-block counters satisfy
`itemsAboveRenderBlock + itemsInRenderBlock + itemsBelowRenderBlock =
itemList.length`: a list change establishes the invariant outright and
every other pass preserves it. -/
theorem claim1_render_block_counter_sum :
    (∀ (op : Option Props) (props : Props) (s : VLVState),
      counterSum (handleItemListChange op props s) = props.itemList.length) ∧
    (∀ (props : Props) (s : VLVState), counterSum s = props.itemList.length →
      counterSum (calcNewRenderedItemState props s) = props.itemList.length) ∧
    (∀ (props : Props) (s : VLVState) (t l : Rat), counterSum s = props.itemList.length →
      counterSum (onScroll props s t l).1 = props.itemList.length) ∧
    (∀ (props : Props) (s : VLVState) (k : String) (h : Rat),
      counterSum s = props.itemList.length →
      counterSum (onLayoutItem props s k h) = props.itemList.length) :=
  ⟨counterSum_handleItemListChange, counterSum_calcNewRenderedItemState,
   counterSum_onScroll, counterSum_onLayoutItem⟩

/-- Witness for C1 at a concrete state. -/
theorem claim1_render_block_counter_sum_witness :
    counterSum exState1 = exProps.itemList.length ∧
    counterSum (calcNewRenderedItemState exProps exState1) = exProps.itemList.length :=
  ⟨by decide, claim1_render_block_counter_sum.2.1 exProps exState1 (by decide)⟩

/-! ### C7 -/

/-- C7: delivering a scroll event whose primary-axis offset equals the
last recorded scroll offset is a no-op: the state is returned unchanged
and no recompute, render, reconcile or caller-callback effect occurs. -/
theorem claim7_scroll_idempotent (props : Props) (s : VLVState) (t l : Rat)
    (h : s.lastScrollTop = t) : onScroll props s t l = (s, []) := by
  unfold onScroll
  simp [h]

/-- Witness for C7 at a concrete state. -/
theorem claim7_scroll_idempotent_witness :
    initialState.lastScrollTop = 0 ∧ onScroll exProps initialState 0 5 = (initialState, []) :=
  ⟨rfl, claim7_scroll_idempotent exProps initialState 0 5 rfl⟩

/-! ### C10 -/

/-- C10: a scroll event that changes only the cross-axis offset (the
primary-axis offset equals the last recorded one) is dropped entirely:
the state is unchanged and in particular the caller-supplied `onScroll`
callback effect is never emitted for that event. -/
theorem claim10_cross_axis_scroll_dropped (props : Props) (s : VLVState) (t l : Rat)
    (h : s.lastScrollTop = t) :
    (onScroll props s t l).1 = s ∧
      ∀ a b, ScrollEffect.scrollCallback a b ∉ (onScroll props s t l).2 := by
  unfold onScroll
  simp [h]

/-- Witness for C10 at a concrete state with a changed cross-axis offset. -/
theorem claim10_cross_axis_scroll_dropped_witness :
    exState1.lastScrollTop = 0 ∧
    ((onScroll exProps exState1 0 33).1 = exState1 ∧
      ∀ a b, ScrollEffect.scrollCallback a b ∉ (onScroll exProps exState1 0 33).2) :=
  ⟨rfl, claim10_cross_axis_scroll_dropped exProps exState1 0 33 rfl⟩

/-! ### C9 -/

/-- C9: a measurement callback arriving for a key absent from the item
directory, or for an item whose extent is declared constant
(`measureHeight` unset), leaves the component state entirely unchanged. -/
theorem claim9_stale_measurement_ignored (props : Props) (s : VLVState) (k : String) (m : Rat) :
    (alGet s.itemMap k = none → onLayoutItem props s k m = s) ∧
    (∀ i item, alGet s.itemMap k = some i → props.itemList.get? i = some item →
      item.measureHeight = false → onLayoutItem props s k m = s) := by
  constructor
  · intro h
    unfold onLayoutItem
    split
    · rfl
    · simp only [h]
  · intro i item h1 h2 h3
    unfold onLayoutItem
    split
    · rfl
    · simp only [h1, h2, h3]
      rfl

/-- Witness for C9: a measurement for an unknown key is dropped. -/
theorem claim9_stale_measurement_ignored_witness :
    alGet exState1.itemMap "ghost" = none ∧
    onLayoutItem exProps exState1 "ghost" 80 = exState1 :=
  ⟨rfl, (claim9_stale_measurement_ignored exProps exState1 "ghost" 80).1 rfl⟩

/-! ### C3 -/

/-- A recyclable active cell (template + constant height). -/
def exCellRow : CellInfo :=
  { virtualKey := 1, itemTemplate := some "row", isHeightConstant := true, height := 50,
    cachedItemKey := "a", top := 0, isVisible := true, shouldUpdate := false }

/-- Accessibility-mode state: pool capacity forced to zero, one active
cell, render not dirty. -/
def exStateA11y : VLVState :=
  { initialState with maxRecycledCells := 0, activeCells := [("a", exCellRow)] }

/-- C3 counterexample: with the pool capacity forced to zero (as in
accessibility mode) `recycleCell` removes the active cell but does NOT
mark the render dirty, contradicting the claim that every
non-pooled recycle marks the render dirty to force immediate unmount. -/
theorem claim3_recycle_counterexample :
    alGet exStateA11y.activeCells "a" = some exCellRow ∧
    exStateA11y.maxRecycledCells = 0 ∧
    alGet (recycleCell exStateA11y "a").activeCells "a" = none ∧
    (recycleCell exStateA11y "a").isRenderDirty = false := by
  decide

/-- C3 (amended): `recycleCell` on an active cell always removes it
from the active map; when the pool capacity is positive, a qualifying
cell (truthy template and constant extent) is pushed onto the recycled
list with its visibility cleared, bounded by the capacity with the
oldest recycled cell evicted past capacity and each eviction marking
the render dirty, while a non-qualifying cell marks the render dirty
immediately; when the pool capacity is zero the cell is simply dropped
from the active map with the dirty flag and the recycled list left
unchanged. -/
theorem claim3_recycle_behavior (s : VLVState) (k : String) (cell : CellInfo)
    (hc : alGet s.activeCells k = some cell) :
    alGet (recycleCell s k).activeCells k = none ∧
    (s.maxRecycledCells > 0 → (strTruthy cell.itemTemplate && cell.isHeightConstant) = true →
      (recycleCell s k).recycledCells =
        (if (s.recycledCells ++ [{ cell with isVisible := false }]).length >
            s.maxRecycledCells then
          (s.recycledCells ++ [{ cell with isVisible := false }]).drop 1
        else s.recycledCells ++ [{ cell with isVisible := false }]) ∧
      ((s.recycledCells ++ [{ cell with isVisible := false }]).length > s.maxRecycledCells →
        (recycleCell s k).isRenderDirty = true) ∧
      (¬(s.recycledCells ++ [{ cell with isVisible := false }]).length > s.maxRecycledCells →
        (recycleCell s k).isRenderDirty = s.isRenderDirty)) ∧
    (s.maxRecycledCells > 0 → (strTruthy cell.itemTemplate && cell.isHeightConstant) = false →
      (recycleCell s k).isRenderDirty = true ∧
      (recycleCell s k).recycledCells = s.recycledCells) ∧
    (s.maxRecycledCells = 0 →
      (recycleCell s k).isRenderDirty = s.isRenderDirty ∧
      (recycleCell s k).recycledCells = s.recycledCells) := by
  unfold recycleCell
  simp only [hc, setCellTopAndVisibility_eq]
  refine ⟨?_, ?_, ?_, ?_⟩
  · repeat' split
    all_goals simp [alGet_alErase_self]
  · intro hmax hqual
    rw [if_pos hmax, if_pos hqual]
    constructor
    · split <;> simp_all
    · constructor
      · intro hover
        rw [if_pos (by simpa using hover)]
      · intro hover
        rw [if_neg (by simpa using hover)]
  · intro hmax hqual
    rw [if_pos hmax, if_neg (by simp [hqual])]
    exact ⟨rfl, rfl⟩
  · intro hmax
    rw [if_neg (by omega)]
    exact ⟨rfl, rfl⟩

/-- Witness for the amended C3 at a concrete qualifying cell with spare
pool capacity. -/
theorem claim3_recycle_behavior_witness :
    alGet exState1.activeCells "a" = none ∧
    (alGet (recycleCell { exState1 with activeCells := [("a", exCellRow)] } "a").activeCells "a"
        = none ∧
      (recycleCell { exState1 with activeCells := [("a", exCellRow)] } "a").recycledCells =
        [{ exCellRow with isVisible := false }]) := by
  refine ⟨rfl, ?_⟩
  have h := claim3_recycle_behavior { exState1 with activeCells := [("a", exCellRow)] } "a"
    exCellRow (by decide)
  refine ⟨h.1, ?_⟩
  have h2 := (h.2.1 (by decide) (by decide)).1
  rw [h2]
  decide

/-! ### C5 -/

theorem itemKeyAt_eq (props : Props) (i : Nat) (item : ItemInfo)
    (h : props.itemList.get? i = some item) : itemKeyAt props i = item.key := by
  unfold itemKeyAt
  rw [h]
  rfl

theorem reconcileFlushLoop_containerHeight (props : Props) (adj : Rat) :
    ∀ idxs s, (reconcileFlushLoop props adj idxs s).containerHeight = s.containerHeight := by
  intro idxs
  induction idxs with
  | nil => intro s; rfl
  | cons i rest ih =>
    intro s
    unfold reconcileFlushLoop
    split
    · exact ih s
    · split
      · exact ih s
      · rw [setCellTopAndVisibility_eq]
        simpa using ih _

theorem reconcileFlushLoop_adjustment (props : Props) (adj : Rat) :
    ∀ idxs s, (reconcileFlushLoop props adj idxs s).heightAboveRenderAdjustment =
      s.heightAboveRenderAdjustment := by
  intro idxs
  induction idxs with
  | nil => intro s; rfl
  | cons i rest ih =>
    intro s
    unfold reconcileFlushLoop
    split
    · exact ih s
    · split
      · exact ih s
      · rw [setCellTopAndVisibility_eq]
        simpa using ih _

theorem reconcileFlushLoop_get_other (props : Props) (adj : Rat) :
    ∀ idxs s k, (∀ j ∈ idxs, itemKeyAt props j ≠ k) →
      alGet (reconcileFlushLoop props adj idxs s).activeCells k = alGet s.activeCells k := by
  intro idxs
  induction idxs with
  | nil => intro s k _; rfl
  | cons j rest ih =>
    intro s k hk
    unfold reconcileFlushLoop
    split
    · exact ih s k (fun j' hj' => hk j' (List.mem_cons_of_mem _ hj'))
    · next itemJ heqJ =>
      split
      · exact ih s k (fun j' hj' => hk j' (List.mem_cons_of_mem _ hj'))
      · next cellJ heqJC =>
        rw [setCellTopAndVisibility_eq]
        rw [ih _ k (fun j' hj' => hk j' (List.mem_cons_of_mem _ hj'))]
        have hkey : itemJ.key ≠ k := by
          rw [← itemKeyAt_eq props j itemJ heqJ]
          exact hk j (List.mem_cons_self j rest)
        simp [heqJC, alGet_alSet_ne _ _ _ _ hkey]

theorem reconcileFlushLoop_spec (props : Props) (adj : Rat) :
    ∀ idxs s, ((idxs.map (itemKeyAt props)).Nodup) →
      ∀ i ∈ idxs, ∀ item cell, props.itemList.get? i = some item →
        alGet s.activeCells item.key = some cell →
        alGet (reconcileFlushLoop props adj idxs s).activeCells item.key =
          some { cell with top := cell.top - adj } := by
  intro idxs
  induction idxs with
  | nil =>
    intro s _ i hi
    exact absurd hi (List.not_mem_nil i)
  | cons j rest ih =>
    intro s hnd i hi item cell hget hcell
    have hnd' : (rest.map (itemKeyAt props)).Nodup := (List.nodup_cons.mp hnd).2
    have hhead : itemKeyAt props j ∉ rest.map (itemKeyAt props) := (List.nodup_cons.mp hnd).1
    rcases List.mem_cons.mp hi with hij | hir
    · subst hij
      unfold reconcileFlushLoop
      simp only [hget, hcell]
      have hothers : ∀ j' ∈ rest, itemKeyAt props j' ≠ item.key := by
        intro j' hj' hcontra
        exact hhead (by
          rw [itemKeyAt_eq props i item hget]
          exact hcontra ▸ List.mem_map_of_mem (itemKeyAt props) hj')
      rw [reconcileFlushLoop_get_other props adj rest _ item.key hothers]
      rw [setCellTopAndVisibility_eq]
      simp only [hcell]
      rw [alGet_alSet_self]
    · have hkeyne : itemKeyAt props j ≠ item.key := by
        intro hcontra
        exact hhead (by
          rw [hcontra, ← itemKeyAt_eq props i item hget]
          exact List.mem_map_of_mem (itemKeyAt props) hir)
      unfold reconcileFlushLoop
      split
      · exact ih s hnd' i hir item cell hget hcell
      · next itemJ heqJ =>
        split
        · exact ih s hnd' i hir item cell hget hcell
        · next cellJ heqJC =>
          refine ih _ hnd' i hir item cell hget ?_
          rw [setCellTopAndVisibility_eq]
          simp only [heqJC]
          rw [alGet_alSet_ne]
          · exact hcell
          · rw [← itemKeyAt_eq props j itemJ heqJ]
            exact hkeyne

/-- C5: whenever `_reconcileCorrections` runs with no pending
animations and a nonzero pending adjustment it flushes: the container
extent decreases by the adjustment, every in-block cell's offset is
shifted by the negative of the adjustment, and the adjustment is zero
afterwards; and with no pending animations the adjustment never
survives a reconcile pass (in particular not at scroll offset 0). -/
theorem claim5_reconcile_flush (props : Props) (s : VLVState)
    (hanim : s.pendingAnimations = [])
    (hadj : s.heightAboveRenderAdjustment ≠ 0)
    (hkeys : ((List.range' s.itemsAboveRenderBlock s.itemsInRenderBlock).map
      (itemKeyAt props)).Nodup) :
    (reconcileCorrections props s).containerHeight =
        s.containerHeight - s.heightAboveRenderAdjustment ∧
    (reconcileCorrections props s).heightAboveRenderAdjustment = 0 ∧
    (∀ i ∈ List.range' s.itemsAboveRenderBlock s.itemsInRenderBlock, ∀ item cell,
      props.itemList.get? i = some item → alGet s.activeCells item.key = some cell →
      alGet (reconcileCorrections props s).activeCells item.key =
        some { cell with top := cell.top - s.heightAboveRenderAdjustment }) ∧
    (∀ s' : VLVState, s'.pendingAnimations = [] →
      (reconcileCorrections props s').heightAboveRenderAdjustment = 0) := by
  have hflush : ∀ s' : VLVState, s'.pendingAnimations = [] →
      (reconcileCorrections props s').heightAboveRenderAdjustment = 0 := by
    intro s' h'
    unfold reconcileCorrections
    rw [if_neg (by simp [h'])]
    dsimp only
    by_cases hcond : |s'.heightAboveRenderAdjustment| > (if (s'.lastScrollTop == 0 ||
        decide (s'.lastScrollTop < s'.heightAboveRenderAdjustment)) = true then
          (0 : Rat) else 0)
    · rw [if_pos hcond]
    · rw [if_neg hcond]
      rw [ite_self] at hcond
      exact abs_eq_zero.mp (le_antisymm (not_lt.mp hcond) (abs_nonneg _))
  have hgate : |s.heightAboveRenderAdjustment| > (if (s.lastScrollTop == 0 ||
      decide (s.lastScrollTop < s.heightAboveRenderAdjustment)) = true then
        (0 : Rat) else 0) := by
    rw [ite_self]
    exact abs_pos.mpr hadj
  refine ⟨?_, hflush s hanim, ?_, hflush⟩
  · unfold reconcileCorrections
    rw [if_neg (by simp [hanim])]
    dsimp only
    rw [if_pos hgate]
    rw [reconcileFlushLoop_containerHeight]
  · intro i hi item cell hget hcell
    unfold reconcileCorrections
    rw [if_neg (by simp [hanim])]
    dsimp only
    rw [if_pos hgate]
    exact reconcileFlushLoop_spec props _ _ _ hkeys i hi item cell hget hcell

/-- State used by the C5 witness: one in-block item with an active
cell, a pending adjustment of 10 and no pending animations. -/
def exState5 : VLVState :=
  { initialState with
    layoutHeight := 100,
    lastScrollTop := 30,
    heightAboveRenderAdjustment := 10,
    containerHeight := 110,
    itemsAboveRenderBlock := 0,
    itemsInRenderBlock := 1,
    itemsBelowRenderBlock := 1,
    activeCells := [("a", exCellRow)],
    itemMap := [("a", 0), ("b", 1)] }

/-- Witness for C5 at a concrete state. -/
theorem claim5_reconcile_flush_witness :
    (exState5.pendingAnimations = [] ∧ exState5.heightAboveRenderAdjustment ≠ 0) ∧
    (reconcileCorrections exProps exState5).containerHeight =
      exState5.containerHeight - exState5.heightAboveRenderAdjustment ∧
    (reconcileCorrections exProps exState5).heightAboveRenderAdjustment = 0 :=
  ⟨⟨rfl, by decide⟩,
   (claim5_reconcile_flush exProps exState5 rfl (by decide) (by decide)).1,
   (claim5_reconcile_flush exProps exState5 rfl (by decide) (by decide)).2.1⟩

/-! ### C6 -/

/-- `_calcNewRenderedItemState` returns immediately while measurements
are still outstanding. -/
theorem calcNewRenderedItemState_of_pending (props : Props) (s : VLVState)
    (hp : s.pendingMeasurements ≠ []) : calcNewRenderedItemState props s = s := by
  unfold calcNewRenderedItemState
  split
  · rfl
  · split
    · rfl
    · split
      · rfl
      · next hlen =>
        exact absurd (List.length_pos.mpr hp) hlen

theorem reconcileFlushLoop_measurement_frame (props : Props) (adj : Rat) :
    ∀ idxs s, (reconcileFlushLoop props adj idxs s).heightCache = s.heightCache ∧
      (reconcileFlushLoop props adj idxs s).pendingMeasurements = s.pendingMeasurements ∧
      (reconcileFlushLoop props adj idxs s).heightOfRenderBlock = s.heightOfRenderBlock := by
  intro idxs
  induction idxs with
  | nil => intro s; exact ⟨rfl, rfl, rfl⟩
  | cons i rest ih =>
    intro s
    unfold reconcileFlushLoop
    split
    · exact ih s
    · split
      · exact ih s
      · rw [setCellTopAndVisibility_eq]
        simpa using ih _

/-- `_reconcileCorrections` never touches the extent cache, the
pending-measurement set or the in-block cumulative extent. -/
theorem reconcileCorrections_measurement_frame (props : Props) (s : VLVState) :
    (reconcileCorrections props s).heightCache = s.heightCache ∧
    (reconcileCorrections props s).pendingMeasurements = s.pendingMeasurements ∧
    (reconcileCorrections props s).heightOfRenderBlock = s.heightOfRenderBlock := by
  unfold reconcileCorrections
  split
  · exact ⟨rfl, rfl, rfl⟩
  · dsimp only
    by_cases hcond : |s.heightAboveRenderAdjustment| > (if (s.lastScrollTop == 0 ||
        decide (s.lastScrollTop < s.heightAboveRenderAdjustment)) = true then
          (0 : Rat) else 0)
    · rw [if_pos hcond]
      simpa using reconcileFlushLoop_measurement_frame props s.heightAboveRenderAdjustment
        (List.range' s.itemsAboveRenderBlock s.itemsInRenderBlock) _
    · rw [if_neg hcond]
      exact ⟨rfl, rfl, rfl⟩

/-- C6: for an item declared `measureHeight` with guess extent
`item.height`, whose measurement callback reports extent `m` while the
item is inside the render block (with at least one other measurement
still outstanding, so no further recompute fires), the extent cache
maps its key to `m` thereafter (the size oracle then returns `m`, not
the guess), the key leaves the pending-measurement set, and the render
block's cumulative extent grows by `m - item.height`. -/
theorem claim6_measurement_roundtrip (props : Props) (s : VLVState) (k : String) (i : Nat)
    (item : ItemInfo) (m : Rat)
    (hm : s.isMounted = true)
    (hidx : alGet s.itemMap k = some i)
    (hitem : props.itemList.get? i = some item)
    (hkey : item.key = k)
    (hmeas : item.measureHeight = true)
    (hnocache : alGet s.heightCache k = none)
    (hin1 : s.itemsAboveRenderBlock ≤ i)
    (hin2 : i < s.itemsAboveRenderBlock + s.itemsInRenderBlock)
    (hpend : ∃ k' ∈ s.pendingMeasurements, k' ≠ k)
    (hnodup : s.pendingMeasurements.Nodup) :
    alGet (onLayoutItem props s k m).heightCache k = some m ∧
    getHeightOfItem (onLayoutItem props s k m) (some item) = m ∧
    k ∉ (onLayoutItem props s k m).pendingMeasurements ∧
    (onLayoutItem props s k m).heightOfRenderBlock =
      s.heightOfRenderBlock + (m - item.height) := by
  have hold : getHeightOfItem s (some item) = item.height := by
    simp [getHeightOfItem, hmeas, hkey, hnocache]
  have herase_ne : s.pendingMeasurements.erase k ≠ [] := by
    obtain ⟨k', hk', hkne⟩ := hpend
    have hmem : k' ∈ s.pendingMeasurements.erase k := (List.mem_erase_of_ne hkne).mpr hk'
    intro hcontra
    rw [hcontra] at hmem
    exact absurd hmem (List.not_mem_nil k')

  have hkerase : k ∉ s.pendingMeasurements.erase k := fun hmem =>
    absurd ((hnodup.mem_erase_iff).mp hmem).1 (by simp)
  have hres : ∃ s3 : VLVState,
      onLayoutItem props s k m = reconcileCorrections props s3 ∧
      s3.heightCache = alSet s.heightCache k m ∧
      s3.pendingMeasurements = s.pendingMeasurements.erase k ∧
      s3.heightOfRenderBlock = s.heightOfRenderBlock + (m - item.height) := by
    unfold onLayoutItem
    split
    · next hmount =>
      rw [hm] at hmount
      simp at hmount
    · simp only [hidx, hitem]
      split
      · next hmeas2 =>
        rw [hmeas] at hmeas2
        simp at hmeas2
      · rw [hold]
        split
        · next hout =>
          exfalso
          rcases hout with h | h <;> omega
        · have hcalcE : ∀ s'' : VLVState,
              s''.pendingMeasurements = s.pendingMeasurements.erase k →
              calcNewRenderedItemState props s'' = s'' := fun s'' h'' =>
            calcNewRenderedItemState_of_pending props s'' (h'' ▸ herase_ne)
          have hE : (s.pendingMeasurements.erase k).isEmpty = false := by
            cases hE' : (s.pendingMeasurements.erase k).isEmpty
            · rfl
            · exact absurd (List.isEmpty_iff.mp hE') herase_ne
          by_cases hne : item.height = m
          · have hchf : (item.height != m) = false := by simp [hne]
            simp only [hchf, Bool.false_eq_true, if_false, Bool.false_or, hE]
            refine ⟨_, rfl, rfl, rfl, ?_⟩
            dsimp only
            rw [hne]
            ring
          · have hcht : (item.height != m) = true := by simp [hne]
            simp only [hcht, eq_self_iff_true, if_true, Bool.true_or]
            split
            all_goals try (split)
            all_goals rw [hcalcE _ rfl]
            all_goals exact ⟨_, rfl, rfl, rfl, rfl⟩
  obtain ⟨s3, heq, hc, hp, hh⟩ := hres
  rw [heq]
  obtain ⟨f1, f2, f3⟩ := reconcileCorrections_measurement_frame props s3
  refine ⟨?_, ?_, ?_, ?_⟩
  · rw [f1, hc, alGet_alSet_self]
  · simp [getHeightOfItem, hmeas, hkey, f1, hc, alGet_alSet_self]
  · rw [f2, hp]
    exact hkerase
  · rw [f3, hh]

/-- State used by the C6 witness: item `c` (guess 50, measured 80) in
the render block, item `d` still pending measurement. -/
def exItemC : ItemInfo :=
  { key := "c", height := 50, measureHeight := true, template := none,
    isNavigable := false, payload := 0 }

def exItemD : ItemInfo :=
  { key := "d", height := 50, measureHeight := true, template := none,
    isNavigable := false, payload := 0 }

def exProps6 : Props :=
  { itemList := [exItemC, exItemD], skipRenderIfItemUnchanged := false,
    animateChanges := false, hasOnScroll := false }

def exState6 : VLVState :=
  { initialState with
    layoutHeight := 100,
    isMounted := true,
    itemMap := [("c", 0), ("d", 1)],
    itemsAboveRenderBlock := 0,
    itemsInRenderBlock := 2,
    itemsBelowRenderBlock := 0,
    heightOfRenderBlock := 100,
    pendingMeasurements := ["c", "d"],
    activeCells := [("c", exCellRow), ("d", exCellRow)] }

/-- Witness for C6: measurement of 80 against a guess of 50. -/
theorem claim6_measurement_roundtrip_witness :
    (exState6.isMounted = true ∧ alGet exState6.itemMap "c" = some 0 ∧
      alGet exState6.heightCache "c" = none) ∧
    alGet (onLayoutItem exProps6 exState6 "c" 80).heightCache "c" = some 80 ∧
    getHeightOfItem (onLayoutItem exProps6 exState6 "c" 80) (some exItemC) = 80 ∧
    "c" ∉ (onLayoutItem exProps6 exState6 "c" 80).pendingMeasurements ∧
    (onLayoutItem exProps6 exState6 "c" 80).heightOfRenderBlock =
      exState6.heightOfRenderBlock + (80 - exItemC.height) :=
  ⟨⟨rfl, rfl, rfl⟩,
   claim6_measurement_roundtrip exProps6 exState6 "c" 0 exItemC 80 rfl rfl rfl rfl rfl rfl
     (by decide) (by decide) ⟨"d", by decide, by decide⟩ (by decide)⟩

/-! ### C8 -/

theorem assertions_mono_setCell (s : VLVState) (k : String) (v : Bool) (t : Rat) (a : Bool)
    (msg : String) (hm : msg ∈ s.assertions) :
    msg ∈ (setCellTopAndVisibility s k v t a).assertions := by
  rw [setCellTopAndVisibility_eq]
  cases h : alGet s.activeCells k <;> simp [h, hm]

theorem assertions_mono_recycleCell (s : VLVState) (k : String) (msg : String)
    (hm : msg ∈ s.assertions) : msg ∈ (recycleCell s k).assertions := by
  unfold recycleCell
  split
  · exact hm
  · next cell heq =>
    rw [setCellTopAndVisibility_eq]
    simp only [heq]
    repeat' split
    all_goals exact hm

theorem assertions_mono_allocateCell (s : VLVState) (k : String) (t : Option String) (i : Nat)
    (c : Bool) (h tp : Rat) (v : Bool) (msg : String) (hm : msg ∈ s.assertions) :
    msg ∈ (allocateCell s k t i c h tp v).assertions := by
  unfold allocateCell
  rcases hq : allocPick s k t c h with ⟨o, r⟩
  cases o
  · exact hm
  · simp [hm]

theorem assertions_mono_hlcRemoveOld (newMap : List (String × Nat)) :
    ∀ (items : List ItemInfo) (idx : Nat) (s : VLVState) (msg : String),
      msg ∈ s.assertions → msg ∈ (hlcRemoveOld newMap items idx s).assertions := by
  intro items
  induction items with
  | nil => intro idx s msg hm; exact hm
  | cons item rest ih =>
    intro idx s msg hm
    unfold hlcRemoveOld
    refine ih _ _ _ ?_
    dsimp only
    repeat' split
    all_goals first
    | exact hm
    | exact assertions_mono_recycleCell _ _ _ hm

theorem assertions_mono_hlcBounds (props : Props) (tl bl : Rat) :
    ∀ (items : List ItemInfo) (idx : Nat) (yPos : Rat) (looking : Bool) (above inb : Nat)
      (s : VLVState) (msg : String), msg ∈ s.assertions →
      msg ∈ (hlcBounds props tl bl items idx yPos looking above inb s).2.2.assertions := by
  intro items
  induction items with
  | nil => intro idx yPos looking above inb s msg hm; exact hm
  | cons item rest ih =>
    intro idx yPos looking above inb s msg hm
    unfold hlcBounds
    dsimp only
    split
    · refine ih _ _ _ _ _ _ _ ?_
      split
      · exact assertions_mono_recycleCell _ _ _ hm
      · exact hm
    · split
      · refine ih _ _ _ _ _ _ _ ?_
        split
        · exact assertions_mono_setCell _ _ _ _ _ _ hm
        · split
          · exact assertions_mono_allocateCell _ _ _ _ _ _ _ _ _ hm
          · exact assertions_mono_allocateCell _ _ _ _ _ _ _ _ _ hm
      · refine ih _ _ _ _ _ _ _ ?_
        split
        · exact assertions_mono_recycleCell _ _ _ hm
        · exact hm

theorem assertions_mono_hlcMarkCells (op : Option Props) :
    ∀ (items : List ItemInfo) (idx : Nat) (nm : List (String × Nat)) (s : VLVState)
      (msg : String), msg ∈ s.assertions →
      msg ∈ (hlcMarkCells op items idx nm s).2.assertions := by
  intro items
  induction items with
  | nil => intro idx nm s msg hm; exact hm
  | cons item rest ih =>
    intro idx nm s msg hm
    unfold hlcMarkCells
    refine ih _ _ _ _ ?_
    dsimp only
    repeat' split
    all_goals first
    | exact hm
    | exact List.mem_append_left _ hm

theorem hlcMarkCells_duplicate (op : Option Props) :
    ∀ (items : List ItemInfo) (idx : Nat) (nm : List (String × Nat)) (s : VLVState),
      ((∃ it ∈ items, (alGet nm it.key).isSome) ∨ ¬ (items.map ItemInfo.key).Nodup) →
      ∃ key, ("Found a duplicate key: " ++ key) ∈ (hlcMarkCells op items idx nm s).2.assertions := by
  intro items
  induction items with
  | nil =>
    intro idx nm s hdup
    rcases hdup with ⟨it, hit, _⟩ | hnodup
    · exact absurd hit (List.not_mem_nil it)
    · simp at hnodup
  | cons item rest ih =>
    intro idx nm s hdup
    by_cases hdupHead : (alGet nm item.key).isSome = true
    · refine ⟨item.key, ?_⟩
      unfold hlcMarkCells
      refine assertions_mono_hlcMarkCells op rest _ _ _ _ ?_
      rw [if_pos hdupHead]
      dsimp only
      repeat' split
      all_goals exact List.mem_append_right _ (List.mem_singleton_self _)
    · have hdup' : (∃ it ∈ rest, (alGet (alSet nm item.key idx) it.key).isSome) ∨
          ¬ (rest.map ItemInfo.key).Nodup := by
        rcases hdup with ⟨it, hit, hsome⟩ | hnodup
        · rcases List.mem_cons.mp hit with h1 | h2
          · exact absurd (h1 ▸ hsome) hdupHead
          · left
            refine ⟨it, h2, ?_⟩
            by_cases hkk : item.key = it.key
            · rw [← hkk, alGet_alSet_self]
              rfl
            · rw [alGet_alSet_ne _ _ _ _ hkk]
              exact hsome
        · by_cases hnodup' : (rest.map ItemInfo.key).Nodup
          · have hin : item.key ∈ rest.map ItemInfo.key := by
              by_contra hni
              exact hnodup (List.nodup_cons.mpr ⟨hni, hnodup'⟩)
            obtain ⟨it, hit, hkeq⟩ := List.mem_map.mp hin
            left
            refine ⟨it, hit, ?_⟩
            rw [hkeq, alGet_alSet_self]
            rfl
          · exact Or.inr hnodup'
      unfold hlcMarkCells
      exact ih (idx + 1) _ _ hdup'

/-- C8: processing an item list that contains two items with the same
key raises the `Found a duplicate key` assertion (the failure is loud,
not a silent drop or merge). -/
theorem claim8_duplicate_key_asserts (op : Option Props) (props : Props) (s : VLVState)
    (hdup : ¬ (props.itemList.map ItemInfo.key).Nodup) :
    ∃ key, ("Found a duplicate key: " ++ key) ∈ (handleItemListChange op props s).assertions := by
  obtain ⟨key, hk⟩ := hlcMarkCells_duplicate op props.itemList 0 [] s (Or.inr hdup)
  refine ⟨key, ?_⟩
  unfold handleItemListChange
  dsimp only
  split
  all_goals dsimp only
  all_goals
    apply assertions_mono_hlcBounds
    apply assertions_mono_hlcRemoveOld
    exact hk

/-- Props whose item list duplicates the key `a`. -/
def exPropsDup : Props :=
  { itemList := [exItemA, exItemA], skipRenderIfItemUnchanged := false,
    animateChanges := false, hasOnScroll := false }

/-- Witness for C8 at a concrete duplicate list. -/
theorem claim8_duplicate_key_asserts_witness :
    ¬ (exPropsDup.itemList.map ItemInfo.key).Nodup ∧
    ∃ key, ("Found a duplicate key: " ++ key) ∈
      (handleItemListChange none exPropsDup initialState).assertions :=
  ⟨by decide, claim8_duplicate_key_asserts none exPropsDup initialState (by decide)⟩

/-! ### C4 -/

theorem listFindIdx_some {α : Type} (p : α → Bool) :
    ∀ (l : List α) (i : Nat), listFindIdx l p = some i →
      ∃ x, l.get? i = some x ∧ p x = true := by
  intro l
  induction l with
  | nil => intro i h; cases h
  | cons x rest ih =>
    intro i h
    unfold listFindIdx at h
    by_cases hp : p x = true
    · rw [if_pos hp] at h
      cases h
      exact ⟨x, rfl, hp⟩
    · rw [if_neg hp] at h
      obtain ⟨j, hj, hji⟩ := Option.map_eq_some'.mp h
      obtain ⟨y, hy, hpy⟩ := ih j hj
      subst hji
      exact ⟨y, hy, hpy⟩

theorem listFindIdx_isSome_of_exists {α : Type} (p : α → Bool) :
    ∀ l : List α, (∃ x ∈ l, p x = true) → (listFindIdx l p).isSome = true := by
  intro l
  induction l with
  | nil =>
    intro ⟨x, hx, _⟩
    exact absurd hx (List.not_mem_nil x)
  | cons y rest ih =>
    intro ⟨x, hx, hpx⟩
    unfold listFindIdx
    by_cases hp : p y = true
    · rw [if_pos hp]; rfl
    · rw [if_neg hp]
      rcases List.mem_cons.mp hx with h1 | h2
      · exact absurd (h1 ▸ hpx) hp
      · have := ih ⟨x, h2, hpx⟩
        obtain ⟨j, hj⟩ := Option.isSome_iff_exists.mp this
        rw [hj]
        rfl

theorem get?_lt_length {α : Type} (l : List α) (i : Nat) (x : α) (h : l.get? i = some x) :
    i < l.length := by
  by_contra hge
  rw [List.get?_eq_none.mpr (not_lt.mp hge)] at h
  cases h

/-- When no cell is active for the key, the template is truthy and the
extent constant, and some recycled cell carries the template,
`allocPick` selects a recycled cell (and removes it by index). -/
theorem allocPick_spec (s : VLVState) (k : String) (t : String) (h : Rat)
    (hact : alGet s.activeCells k = none) (ht : t ≠ "")
    (hex : ∃ c ∈ s.recycledCells, c.itemTemplate = some t) :
    ∃ c idx, s.recycledCells.get? idx = some c ∧ c.itemTemplate = some t ∧
      allocPick s k (some t) true h = (some c, s.recycledCells.eraseIdx idx) := by
  unfold allocPick
  simp only [hact]
  have hcond : (strTruthy (some t) && true) = true := by simp [strTruthy, ht]
  rw [if_pos hcond]
  cases hE : listFindIdx s.recycledCells (fun cell =>
      cell.itemTemplate == some t && cell.cachedItemKey == k && cell.height == h) with
  | some j =>
    obtain ⟨c, hc, hp⟩ := listFindIdx_some _ s.recycledCells j hE
    refine ⟨c, j, hc, ?_, ?_⟩
    · have := (Bool.and_eq_true _ _).mp ((Bool.and_eq_true _ _).mp hp).1
      simpa using this.1
    · simp only [hE]
      rw [hc]
  | none =>
    have hS := listFindIdx_isSome_of_exists
      (fun cell => cell.itemTemplate == some t) s.recycledCells
      (by obtain ⟨c, hc, hct⟩ := hex; exact ⟨c, hc, by simp [hct]⟩)
    obtain ⟨j, hj⟩ := Option.isSome_iff_exists.mp hS
    obtain ⟨c, hc, hp⟩ := listFindIdx_some _ s.recycledCells j hj
    refine ⟨c, j, hc, by simpa using hp, ?_⟩
    simp only [hE, hj]
    rw [hc]

/-- When a recycled cell is an exact `(template, cachedItemKey,
height)` match, `allocPick` selects an exact match. -/
theorem allocPick_exact_spec (s : VLVState) (k : String) (t : String) (h : Rat)
    (hact : alGet s.activeCells k = none) (ht : t ≠ "")
    (hex : ∃ c ∈ s.recycledCells, c.itemTemplate = some t ∧ c.cachedItemKey = k ∧
      c.height = h) :
    ∃ c idx, s.recycledCells.get? idx = some c ∧ c.itemTemplate = some t ∧
      c.cachedItemKey = k ∧ c.height = h ∧
      allocPick s k (some t) true h = (some c, s.recycledCells.eraseIdx idx) := by
  unfold allocPick
  simp only [hact]
  have hcond : (strTruthy (some t) && true) = true := by simp [strTruthy, ht]
  rw [if_pos hcond]
  have hS := listFindIdx_isSome_of_exists
    (fun cell => cell.itemTemplate == some t && cell.cachedItemKey == k && cell.height == h)
    s.recycledCells
    (by obtain ⟨c, hc, h1, h2, h3⟩ := hex; exact ⟨c, hc, by simp [h1, h2, h3]⟩)
  obtain ⟨j, hj⟩ := Option.isSome_iff_exists.mp hS
  obtain ⟨c, hc, hp⟩ := listFindIdx_some _ s.recycledCells j hj
  have h1 := (Bool.and_eq_true _ _).mp hp
  have h2 := (Bool.and_eq_true _ _).mp h1.1
  refine ⟨c, j, hc, by simpa using h2.1, by simpa using h2.2, by simpa using h1.2, ?_⟩
  simp only [hj]
  rw [hc]

/-- Item `x` of template `row` (list A) and item `y` of the same
template and extent (list B). -/
def exItemX : ItemInfo :=
  { key := "x", height := 50, measureHeight := false, template := some "row",
    isNavigable := false, payload := 0 }

def exItemY : ItemInfo :=
  { key := "y", height := 50, measureHeight := false, template := some "row",
    isNavigable := false, payload := 0 }

def exPropsA : Props :=
  { itemList := [exItemX], skipRenderIfItemUnchanged := false,
    animateChanges := false, hasOnScroll := false }

def exPropsB : Props :=
  { itemList := [exItemY], skipRenderIfItemUnchanged := false,
    animateChanges := false, hasOnScroll := false }

def exState4 : VLVState := { initialState with layoutHeight := 100 }

/-- State after list A is processed. -/
def exStateAfterA : VLVState := handleItemListChange none exPropsA exState4

/-- State after list B (X removed, Y added) is processed. -/
def exStateAfterB : VLVState := handleItemListChange (some exPropsA) exPropsB exStateAfterA

/-- The cell allocated for `x` by list A. -/
def exCellX : CellInfo :=
  { virtualKey := 1, itemTemplate := some "row", isHeightConstant := true, height := 50,
    cachedItemKey := "x", top := 0, isVisible := false, shouldUpdate := true }

/-- Explicit value of `exStateAfterA`. -/
def exStateAfterAVal : VLVState :=
  { initialState with
    layoutHeight := 100,
    isRenderDirty := true,
    heightOfRenderBlock := 50,
    itemsAboveRenderBlock := 0,
    itemsInRenderBlock := 1,
    itemsBelowRenderBlock := 0,
    nextCellKey := 2,
    activeCells := [("x", exCellX)],
    itemMap := [("x", 0)],
    containerHeight := 50 }

set_option maxHeartbeats 2000000 in
theorem exStateAfterA_eq : exStateAfterA = exStateAfterAVal := by
  unfold exStateAfterA exStateAfterAVal exState4 exPropsA exItemX initialState
  norm_num [handleItemListChange, hlcMarkCells, hlcRemoveOld, hlcBounds, calcOverdrawAmount,
    calcHeightOfItems, getHeightOfItem, isItemHeightKnown, shouldShowItem, allocateCell,
    allocPick, recycleCell, setCellTopAndVisibility, alGet, alSet, alErase, setAdd,
    listFindIdx, strTruthy, markShouldUpdate, exCellX]

/-- Explicit value of `exStateAfterB`: the `x` cell (virtual key 1) now
serves `y`, and no fresh virtual key was consumed. -/
def exStateAfterBVal : VLVState :=
  { exStateAfterAVal with
    activeCells := [("y", { exCellX with top := 0, isVisible := false, shouldUpdate := true })],
    itemMap := [("y", 0)] }

set_option maxHeartbeats 2000000 in
theorem exStateAfterB_eq : exStateAfterB = exStateAfterBVal := by
  unfold exStateAfterB
  rw [exStateAfterA_eq]
  unfold exStateAfterBVal exStateAfterAVal exPropsA exPropsB exItemX exItemY exCellX
    initialState
  norm_num [handleItemListChange, hlcMarkCells, hlcRemoveOld, hlcBounds, calcOverdrawAmount,
    calcHeightOfItems, getHeightOfItem, isItemHeightKnown, shouldShowItem, allocateCell,
    allocPick, recycleCell, setCellTopAndVisibility, alGet, alSet, alErase, setAdd,
    listFindIdx, strTruthy, markShouldUpdate, focusSubsequentItemNoRetry, List.erase]
  simp only [String.reduceEq, reduceIte]
  norm_num [alGet, alSet, alErase, calcHeightOfItems, getHeightOfItem]

/-- C4: `allocateCell`, for a key with no active cell but a truthy
template and constant extent, repurposes a recycled cell of the same
template (removing it from the recycled set, allocating no fresh
virtual key), prefers an exact `(template, cachedItemKey, extent)`
match when one exists; hence in the two-list scenario A = [X] then
B = [Y] (same template `row`, same constant extent) the cell rendering
Y is the very cell (same virtual key) that rendered X, with no new
cell allocation. -/
theorem claim4_recycled_cell_reuse :
    (∀ (s : VLVState) (k : String) (t : String) (i : Nat) (h tp : Rat) (v : Bool),
      alGet s.activeCells k = none → t ≠ "" →
      (∃ c ∈ s.recycledCells, c.itemTemplate = some t) →
      ∃ c ∈ s.recycledCells,
        alGet (allocateCell s k (some t) i true h tp v).activeCells k =
          some { c with isVisible := v, top := tp, shouldUpdate := true } ∧
        (allocateCell s k (some t) i true h tp v).nextCellKey = s.nextCellKey ∧
        (allocateCell s k (some t) i true h tp v).recycledCells.length + 1 =
          s.recycledCells.length) ∧
    (∀ (s : VLVState) (k : String) (t : String) (i : Nat) (h tp : Rat) (v : Bool),
      alGet s.activeCells k = none → t ≠ "" →
      (∃ c ∈ s.recycledCells, c.itemTemplate = some t ∧ c.cachedItemKey = k ∧
        c.height = h) →
      ∃ c, alGet (allocateCell s k (some t) i true h tp v).activeCells k =
          some { c with isVisible := v, top := tp, shouldUpdate := true } ∧
        c ∈ s.recycledCells ∧ c.itemTemplate = some t ∧ c.cachedItemKey = k ∧
        c.height = h) ∧
    ((alGet exStateAfterA.activeCells "x").map CellInfo.virtualKey = some 1 ∧
      (alGet exStateAfterB.activeCells "y").map CellInfo.virtualKey = some 1 ∧
      exStateAfterA.nextCellKey = 2 ∧
      exStateAfterB.nextCellKey = 2) := by
  refine ⟨?_, ?_, ?_, ?_, ?_, ?_⟩
  · intro s k t i h tp v hact ht hex
    obtain ⟨c, idx, hcidx, hct, hpick⟩ := allocPick_spec s k t h hact ht hex
    have hlt : idx < s.recycledCells.length := get?_lt_length _ _ _ hcidx
    refine ⟨c, List.get?_mem hcidx, ?_, ?_, ?_⟩
    · unfold allocateCell
      rw [hpick]
      exact alGet_alSet_self _ _ _
    · unfold allocateCell
      rw [hpick]
    · unfold allocateCell
      rw [hpick]
      exact List.length_eraseIdx_add_one hlt
  · intro s k t i h tp v hact ht hex
    obtain ⟨c, idx, hcidx, h1, h2, h3, hpick⟩ := allocPick_exact_spec s k t h hact ht hex
    refine ⟨c, ?_, List.get?_mem hcidx, h1, h2, h3⟩
    unfold allocateCell
    rw [hpick]
    exact alGet_alSet_self _ _ _
  · rw [exStateAfterA_eq]; rfl
  · rw [exStateAfterB_eq]; rfl
  · rw [exStateAfterA_eq]; rfl
  · rw [exStateAfterB_eq]; rfl

/-- Witness for C4's universally quantified parts, at a concrete
recycled pool holding one `row` cell. -/
theorem claim4_recycled_cell_reuse_witness :
    (alGet { initialState with recycledCells := [exCellRow] }.activeCells "y" = none ∧
      "row" ≠ "" ∧ exCellRow ∈ [exCellRow] ∧ exCellRow.itemTemplate = some "row") ∧
    ∃ c ∈ ({ initialState with recycledCells := [exCellRow] } : VLVState).recycledCells,
      alGet (allocateCell { initialState with recycledCells := [exCellRow] } "y" (some "row")
          0 true 50 0 true).activeCells "y" =
        some { c with isVisible := true, top := 0, shouldUpdate := true } ∧
      (allocateCell { initialState with recycledCells := [exCellRow] } "y" (some "row")
          0 true 50 0 true).nextCellKey =
        ({ initialState with recycledCells := [exCellRow] } : VLVState).nextCellKey ∧
      (allocateCell { initialState with recycledCells := [exCellRow] } "y" (some "row")
          0 true 50 0 true).recycledCells.length + 1 =
        ({ initialState with recycledCells := [exCellRow] } : VLVState).recycledCells.length :=
  ⟨⟨rfl, by decide, by decide, rfl⟩,
   claim4_recycled_cell_reuse.1 { initialState with recycledCells := [exCellRow] } "y" "row"
     0 50 0 true rfl (by decide) ⟨exCellRow, by decide, rfl⟩⟩

/-! ### C2 -/

/-- A constant-height item retained unchanged across a list update. -/
def exItemS : ItemInfo :=
  { key := "s", height := 50, measureHeight := false, template := none,
    isNavigable := false, payload := 0 }

/-- Props with change-skipping enabled (`skipRenderIfItemUnchanged`). -/
def exProps2 : Props :=
  { itemList := [exItemS], skipRenderIfItemUnchanged := true,
    animateChanges := false, hasOnScroll := false }

/-- The active cell currently rendering `s`, not marked for update. -/
def exCellS : CellInfo :=
  { virtualKey := 1, itemTemplate := none, isHeightConstant := true, height := 50,
    cachedItemKey := "s", top := 0, isVisible := true, shouldUpdate := false }

/-- A laid-out state in which item `s` is active and clean. -/
def exState2 : VLVState :=
  { initialState with
    layoutHeight := 100,
    itemMap := [("s", 0)],
    itemsInRenderBlock := 1,
    heightOfRenderBlock := 50,
    activeCells := [("s", exCellS)],
    nextCellKey := 2,
    containerHeight := 50 }

/-- C2: evaluation of the code at the failing input.  With
change-skipping enabled (`skipRenderIfItemUnchanged = true`) and an
identical list delivered again (descriptor of the retained item `s`
unchanged by value), `handleItemListChange` nevertheless marks the
retained active cell `shouldUpdate` — the source tests
`this.props.skipRenderIfItemUnchanged || !_.isEqual(oldItem, item)`,
which short-circuits to true whenever the flag is enabled, the opposite
of the flag's documented meaning. -/
theorem claim2_skip_render_marks_unchanged_cell :
    exProps2.skipRenderIfItemUnchanged = true ∧
    (exProps2.itemList.get? 0 = some exItemS ∧
      (alGet exState2.activeCells "s").map CellInfo.shouldUpdate = some false) ∧
    (alGet (handleItemListChange (some exProps2) exProps2 exState2).activeCells "s").map
      CellInfo.shouldUpdate = some true := by
  refine ⟨rfl, ⟨rfl, rfl⟩, ?_⟩
  norm_num [handleItemListChange, hlcMarkCells, hlcRemoveOld, hlcBounds, calcOverdrawAmount,
    calcHeightOfItems, getHeightOfItem, isItemHeightKnown, shouldShowItem, allocateCell,
    allocPick, recycleCell, setCellTopAndVisibility, alGet, alSet, alErase, setAdd,
    listFindIdx, strTruthy, markShouldUpdate, exProps2, exItemS, exState2, exCellS,
    initialState]

end VirtualList
